import Mathlib

/-!
# splunk-otel-collector: remote-write transport handler and SQL expression glue

A shallow embedding of

* `internal/receiver/simpleprometheusremotewritereceiver/internal/transport/server.go`
  (`handleRemoteWrite`, the `Reporter` interface), and
* `internal/signalfx-agent/pkg/monitors/sql/expressions.go`
  (`newExprEnv`, `scannedToValues`, `convertToFloatOrPanic`, `GAUGE`, `CUMULATIVE`).

Effects (writes to the `http.ResponseWriter`, lines printed on standard output,
calls on a `Reporter`) are recorded as an ordered list of events.  A Go panic is
the `Except.error` result carrying the panic; the handler, which has no
`recover`, reports the effects it performed together with the panic that ended
it.
-/

/-- A `float64`, carried as its IEEE-754 bit pattern. -/
structure Float64 where
  bits : Nat
  deriving DecidableEq, Repr

namespace GoMap

/-- A Go `map[κ]ν`: an association list that holds every key at most once.
New keys are appended, so the list order is the order of first insertion; Go
itself gives a map no order and no observer below depends on it. -/
abbrev Map (κ ν : Type) := List (κ × ν)

/-- The statement `m[k] = v`. -/
def assign {κ ν : Type} [DecidableEq κ] : Map κ ν → κ → ν → Map κ ν
  | [], k, v => [(k, v)]
  | (k', v') :: rest, k, v =>
    if k' = k then (k, v) :: rest else (k', v') :: assign rest k v

/-- The lookup `v, ok := m[k]`. -/
def get? {κ ν : Type} [DecidableEq κ] : Map κ ν → κ → Option ν
  | [], _ => none
  | (k', v') :: rest, k => if k' = k then some v' else get? rest k

/-- The keys held by the map. -/
def keys {κ ν : Type} (m : Map κ ν) : List κ := m.map Prod.fst

/-- The builtin `len(m)`. -/
def len {κ ν : Type} (m : Map κ ν) : Nat := m.length

end GoMap

namespace Transport

/-- The message `prompb.Label`. -/
structure Label where
  Name : String
  Value : String
  deriving DecidableEq, Repr

/-- The message `prompb.Sample`. -/
structure Sample where
  Value : Float64
  Timestamp : Int
  deriving DecidableEq, Repr

/-- The message `prompb.Exemplar`. -/
structure Exemplar where
  Labels : List Label
  Value : Float64
  Timestamp : Int
  deriving DecidableEq, Repr

/-- The message `prompb.TimeSeries`; `HP` is the wire histogram `prompb.Histogram`,
which the handler only passes to the library. -/
structure TimeSeries (HP : Type) where
  Labels : List Label
  Samples : List Sample
  Exemplars : List Exemplar
  Histograms : List HP

/-- The message `prompb.WriteRequest`, as far as the handler reads it. -/
structure WriteRequest (HP : Type) where
  Timeseries : List (TimeSeries HP)

/-- The part of `*http.Request` the handler reads: the body bytes. -/
structure Request where
  Body : List Nat

/-- The type `model.Metric`, a `map[LabelName]LabelValue`; both are string types. -/
abbrev Metric := GoMap.Map String String

/-- A call on the `Reporter` interface; `ctx` names a `context.Context`. -/
inductive ReporterCall where
  | OnDataReceived (ctx : Nat)
  | OnTranslationError (ctx : Nat) (err : String)
  | OnMetricsProcessed (ctx : Nat) (numReceivedMessages : Int) (err : Option String)
  | OnDebugf (template : String) (args : List String)
  deriving DecidableEq, Repr

/-- One observable effect of handling a request. -/
inductive Event where
  /-- The call `w.Header().Set(key, value)`. -/
  | headerSet (key value : String)
  /-- The call `w.WriteHeader(code)`. -/
  | writeHeader (code : Nat)
  /-- Bytes written to the response body. -/
  | write (text : String)
  /-- The line `fmt.Println(m)`. -/
  | printlnMetric (m : Metric)
  /-- The line `fmt.Printf("\tSample:  %f %d\n", s.Value, s.Timestamp)`. -/
  | printfSample (value : Float64) (timestamp : Int)
  /-- The line `fmt.Printf("\tExemplar:  %+v %f %d\n", m, e.Value, e.Timestamp)`. -/
  | printfExemplar (m : Metric) (value : Float64) (timestamp : Int)
  /-- The line `fmt.Printf("\tHistogram:  %s\n", h.String())`. -/
  | printfHistogram (text : String)
  /-- A call on a `Reporter`. -/
  | reporter (call : ReporterCall)
  deriving DecidableEq, Repr

def StatusBadRequest : Nat := 400
def StatusAccepted : Nat := 202
def StatusTooManyRequests : Nat := 429

/-- The standard library's `http.Error(w, error, code)`: it sets the content type
to plain text, forbids sniffing, writes the status line and then the message
followed by a newline. -/
def httpError (out : List Event) (error : String) (code : Nat) : List Event :=
  out ++ [Event.headerSet "Content-Type" "text/plain; charset=utf-8",
          Event.headerSet "X-Content-Type-Options" "nosniff",
          Event.writeHeader code,
          Event.write (error ++ "\n")]

/-- The inner loop `for _, l := range labels { m[LabelName(l.Name)] = LabelValue(l.Value) }`
run on the map `m`. -/
def labelLoop (m : Metric) (labels : List Label) : Metric :=
  labels.foldl (fun m l => GoMap.assign m l.Name l.Value) m

/-- The variables live in the body of the series loop: the series-level map `m`,
the effects so far, and the panic that ended the run, if one was raised. -/
structure LoopState where
  m : Metric
  out : List Event
  panicked : Option String
  deriving DecidableEq, Repr

/-- The loop `for _, s := range ts.Samples`. -/
def sampleLoop (st : LoopState) (samples : List Sample) : LoopState :=
  samples.foldl
    (fun st s => { st with out := st.out ++ [Event.printfSample s.Value s.Timestamp] }) st

/-- The loop `for _, e := range ts.Exemplars`.  Its body declares a new `m`
(`m := make(model.Metric, len(e.Labels))`) that shadows the series-level one. -/
def exemplarLoop (st : LoopState) (exemplars : List Exemplar) : LoopState :=
  exemplars.foldl
    (fun st e =>
      let m := labelLoop [] e.Labels
      { st with out := st.out ++ [Event.printfExemplar m e.Value e.Timestamp] }) st

/-- The text of a histogram line: `h := remote.HistogramProtoToHistogram(hp)`
followed by `h.String()`.  Both are library calls and either may panic; the
error carries the panic message. -/
def histogramText {HP Hg : Type} (toHistogram : HP → Except String Hg)
    (histString : Hg → Except String String) (hp : HP) : Except String String :=
  match toHistogram hp with
  | .error msg => .error msg
  | .ok h => histString h

/-- The loop `for _, hp := range ts.Histograms`.  The handler has no `recover`:
a panic of a library call ends the loop, and the run, at that histogram. -/
def histogramLoop {HP Hg : Type} (toHistogram : HP → Except String Hg)
    (histString : Hg → Except String String) (st : LoopState) : List HP → LoopState
  | [] => st
  | hp :: rest =>
    match histogramText toHistogram histString hp with
    | .error msg => { st with panicked := some msg }
    | .ok text =>
      histogramLoop toHistogram histString
        { st with out := st.out ++ [Event.printfHistogram text] } rest

/-- The body of `for _, ts := range req.Timeseries`, from the effects so far to
the state at the end of the iteration. -/
def seriesBody {HP Hg : Type} (toHistogram : HP → Except String Hg)
    (histString : Hg → Except String String) (out : List Event) (ts : TimeSeries HP) :
    LoopState :=
  let m := labelLoop [] ts.Labels
  let st : LoopState := { m := m, out := out ++ [Event.printlnMetric m], panicked := none }
  let st := sampleLoop st ts.Samples
  let st := exemplarLoop st ts.Exemplars
  histogramLoop toHistogram histString st ts.Histograms

/-- The loop `for _, ts := range req.Timeseries`: the effects performed and the
panic that ended it, if any.  A panic in one iteration ends the loop. -/
def seriesLoop {HP Hg : Type} (toHistogram : HP → Except String Hg)
    (histString : Hg → Except String String) (out : List Event) :
    List (TimeSeries HP) → List Event × Option String
  | [] => (out, none)
  | ts :: rest =>
    match (seriesBody toHistogram histString out ts).panicked with
    | some msg => ((seriesBody toHistogram histString out ts).out, some msg)
    | none =>
      seriesLoop toHistogram histString (seriesBody toHistogram histString out ts).out rest

/-- What a call of the handler did: its effects in order, and the panic it ended
with when it did not return. -/
structure Outcome where
  out : List Event
  panicked : Option String
  deriving DecidableEq, Repr

/-- The function `handleRemoteWrite(w, r)`.  `decode` is the library's
`remote.DecodeWriteRequest`, whose error is carried as its message; `toHistogram`
is `remote.HistogramProtoToHistogram` and `histString` the method `String` of its
result.  After a panic in the series loop the status line is not reached. -/
def handleRemoteWrite {HP Hg : Type} (decode : List Nat → Except String (WriteRequest HP))
    (toHistogram : HP → Except String Hg) (histString : Hg → Except String String)
    (r : Request) : Outcome :=
  match decode r.Body with
  | .error err => { out := httpError [] err StatusBadRequest, panicked := none }
  | .ok req =>
    match seriesLoop toHistogram histString [] req.Timeseries with
    | (out, some msg) => { out := out, panicked := some msg }
    | (out, none) => { out := out ++ [Event.writeHeader StatusAccepted], panicked := none }

/-- The histogram lines printed up to the first panic, and that panic: the
histogram loop in closed form. -/
def histogramRun {HP Hg : Type} (toHistogram : HP → Except String Hg)
    (histString : Hg → Except String String) : List HP → List Event × Option String
  | [] => ([], none)
  | hp :: rest =>
    match histogramText toHistogram histString hp with
    | .error msg => ([], some msg)
    | .ok text =>
      (Event.printfHistogram text :: (histogramRun toHistogram histString rest).1,
        (histogramRun toHistogram histString rest).2)

/-- The text printed for a histogram that prints, and the empty text for one on
which the library panics. -/
def histogramTextOr {HP Hg : Type} (toHistogram : HP → Except String Hg)
    (histString : Hg → Except String String) (hp : HP) : String :=
  match histogramText toHistogram histString hp with
  | .ok text => text
  | .error _ => ""

/-- The effects of one iteration of the series loop up to the first panic, and
that panic: the loop body in closed form. -/
def seriesRun {HP Hg : Type} (toHistogram : HP → Except String Hg)
    (histString : Hg → Except String String) (ts : TimeSeries HP) :
    List Event × Option String :=
  (Event.printlnMetric (labelLoop [] ts.Labels) ::
    (ts.Samples.map (fun s => Event.printfSample s.Value s.Timestamp) ++
      (ts.Exemplars.map
          (fun e => Event.printfExemplar (labelLoop [] e.Labels) e.Value e.Timestamp) ++
        (histogramRun toHistogram histString ts.Histograms).1)),
    (histogramRun toHistogram histString ts.Histograms).2)

/-- The series loop in closed form. -/
def walkRun {HP Hg : Type} (toHistogram : HP → Except String Hg)
    (histString : Hg → Except String String) :
    List (TimeSeries HP) → List Event × Option String
  | [] => ([], none)
  | ts :: rest =>
    match (seriesRun toHistogram histString ts).2 with
    | some msg => ((seriesRun toHistogram histString ts).1, some msg)
    | none =>
      ((seriesRun toHistogram histString ts).1 ++ (walkRun toHistogram histString rest).1,
        (walkRun toHistogram histString rest).2)

/-- The effects of one iteration of the series loop in which every histogram
prints, `text` giving the text printed for a histogram. -/
def seriesEvents {HP : Type} (text : HP → String) (ts : TimeSeries HP) : List Event :=
  Event.printlnMetric (labelLoop [] ts.Labels) ::
    (ts.Samples.map (fun s => Event.printfSample s.Value s.Timestamp) ++
      (ts.Exemplars.map
          (fun e => Event.printfExemplar (labelLoop [] e.Labels) e.Value e.Timestamp) ++
        ts.Histograms.map (fun hp => Event.printfHistogram (text hp))))

/-- The number of entities a time series carries: itself, its samples, exemplars
and histograms. -/
def TimeSeries.entityCount {HP : Type} (ts : TimeSeries HP) : Nat :=
  1 + ts.Samples.length + ts.Exemplars.length + ts.Histograms.length

/-- A request of two series for instantiating the theorems: the first with two
labels, samples, an exemplar and a histogram, the second with no point at all. -/
def sampleRequest : WriteRequest Nat :=
  { Timeseries :=
      [{ Labels := [⟨"job", "a"⟩, ⟨"env", "p"⟩], Samples := [⟨⟨1⟩, 10⟩, ⟨⟨2⟩, 5⟩],
         Exemplars := [⟨[⟨"trace", "t"⟩], ⟨2⟩, 11⟩], Histograms := [7] },
       { Labels := [⟨"job", "b"⟩], Samples := [], Exemplars := [], Histograms := [] }] }

/-- A request of two series with unique label names; the histogram of the first
is one on which the library panics. -/
def panickingRequest : WriteRequest Nat :=
  { Timeseries :=
      [{ Labels := [⟨"a", "1"⟩], Samples := [], Exemplars := [], Histograms := [0] },
       { Labels := [⟨"a", "2"⟩], Samples := [], Exemplars := [], Histograms := [] }] }

/-- A decoder that accepts every body as `sampleRequest`. -/
def acceptingDecode : List Nat → Except String (WriteRequest Nat) :=
  fun _ => .ok sampleRequest

/-- A decoder that accepts every body as `panickingRequest`. -/
def panickingDecode : List Nat → Except String (WriteRequest Nat) :=
  fun _ => .ok panickingRequest

/-- A decoder that rejects every body. -/
def rejectingDecode : List Nat → Except String (WriteRequest Nat) :=
  fun _ => .error "snappy: corrupt input"

/-- A stand-in for the library's histogram conversion, here without a panic. -/
def sampleToHistogram : Nat → Except String Nat := fun n => .ok n

/-- A stand-in for the library's histogram printer.  Histogram `0` stands for a
wire histogram that decodes but on which the printer panics (a span that
announces a bucket for which no delta is given). -/
def sampleHistString : Nat → Except String String :=
  fun n => if n = 0 then .error "runtime error: index out of range" else .ok "hist"

/-! ### Observers of an effect trace -/

/-- The codes passed to `WriteHeader`, in call order. -/
def writeHeaderCalls : List Event → List Nat
  | [] => []
  | Event.writeHeader c :: rest => c :: writeHeaderCalls rest
  | _ :: rest => writeHeaderCalls rest

/-- The status of the response: the code of the first `WriteHeader` call. -/
def responseStatus (tr : List Event) : Option Nat := (writeHeaderCalls tr).head?

/-- The response body: everything written, concatenated. -/
def responseBody : List Event → String
  | [] => ""
  | Event.write s :: rest => s ++ responseBody rest
  | _ :: rest => responseBody rest

/-- The value of a response header: the last one set for the key. -/
def responseHeader (key : String) : List Event → Option String
  | [] => none
  | Event.headerSet k v :: rest =>
    match responseHeader key rest with
    | some v' => some v'
    | none => if k = key then some v else none
  | _ :: rest => responseHeader key rest

/-- The calls made on a `Reporter`, in order. -/
def reporterCalls : List Event → List ReporterCall
  | [] => []
  | Event.reporter c :: rest => c :: reporterCalls rest
  | _ :: rest => reporterCalls rest

/-- Whether the event emits an entity of a time series (label map, sample,
exemplar or histogram). -/
def Event.isEntity : Event → Bool
  | Event.printlnMetric _ => true
  | Event.printfSample _ _ => true
  | Event.printfExemplar _ _ _ => true
  | Event.printfHistogram _ => true
  | _ => false

/-- Scan of a trace from its end: the samples printed since the last series map,
and the series collected behind it. -/
def seriesSeenAux : List Event → List Sample × List (Metric × List Sample)
  | [] => ([], [])
  | Event.printlnMetric m :: rest => ([], (m, (seriesSeenAux rest).1) :: (seriesSeenAux rest).2)
  | Event.printfSample v t :: rest =>
    ({ Value := v, Timestamp := t } :: (seriesSeenAux rest).1, (seriesSeenAux rest).2)
  | _ :: rest => seriesSeenAux rest

/-- The series seen in a trace: every printed series map with the samples
printed after it and before the next series map, in order. -/
def seriesSeen (tr : List Event) : List (Metric × List Sample) := (seriesSeenAux tr).2

/-- The exemplars printed in a trace, in order. -/
def exemplarsSeen : List Event → List (Metric × Float64 × Int)
  | [] => []
  | Event.printfExemplar m v t :: rest => (m, v, t) :: exemplarsSeen rest
  | _ :: rest => exemplarsSeen rest

end Transport

namespace Sql

/-- A Go `string`: its bytes. -/
abbrev GoString := List Nat

/-- A `time.Time`; the code only moves it around. -/
structure Time where
  unixNano : Int
  deriving DecidableEq, Repr

/-- The struct `sql.NullString`. -/
structure NullString where
  String : GoString
  Valid : Bool
  deriving DecidableEq, Repr

/-- The struct `sql.NullFloat64`. -/
structure NullFloat64 where
  Float64 : Float64
  Valid : Bool
  deriving DecidableEq, Repr

/-- The struct `sql.NullTime`. -/
structure NullTime where
  Time : Time
  Valid : Bool
  deriving DecidableEq, Repr

/-- The struct `sql.NullBool`. -/
structure NullBool where
  Valid : Bool
  Bool : Bool
  deriving DecidableEq, Repr

/-- The signed integer kinds of `reflect`. -/
inductive IntKind where
  | int | int8 | int16 | int32 | int64
  deriving DecidableEq, Repr

/-- The unsigned integer kinds of `reflect`. -/
inductive UintKind where
  | uint | uint8 | uint16 | uint32 | uint64 | uintptr
  deriving DecidableEq, Repr

/-- The dynamic types the code tells apart.  A named type stands with its kind
(`int k` is any type of kind `k`); `other` is any remaining type (struct, map,
channel, a named byte slice, ...). -/
inductive Ty where
  | bool
  | int (k : IntKind)
  | uint (k : UintKind)
  | float32
  | float64
  | complex128
  | string
  | bytes
  | time
  | nullString
  | nullFloat64
  | nullTime
  | nullBool
  | iface
  | ptr (elem : Ty)
  | other (name : String)
  deriving DecidableEq, Repr

/-- A non-nil dynamic value, as an `interface{}` can hold it. -/
inductive Val where
  | bool (b : Bool)
  | int (k : IntKind) (n : Int)
  | uint (k : UintKind) (n : Nat)
  | float32 (bits : Nat)
  | float64 (x : Float64)
  | complex128 (re im : Float64)
  | string (s : GoString)
  /-- A `[]uint8`. -/
  | bytes (b : List Nat)
  | time (t : Time)
  | nullString (x : NullString)
  | nullFloat64 (x : NullFloat64)
  | nullTime (x : NullTime)
  | nullBool (x : NullBool)
  /-- A non-nil pointer to a variable of concrete type holding `target`. -/
  | ptr (target : Val)
  /-- A non-nil `*interface{}` whose interface holds `held`. -/
  | ptrIface (held : Val)
  /-- A non-nil `*interface{}` whose interface is nil. -/
  | ptrNilIface
  /-- The nil pointer of type `*elem`. -/
  | nilPtr (elem : Ty)
  /-- A value of any other type. -/
  | other (name : String) (id : Nat)
  deriving DecidableEq, Repr

/-- An `interface{}`: nil, or a dynamic value. -/
abbrev Iface := Option Val

/-- The dynamic type of a value. -/
def Val.typeOf : Val → Ty
  | .bool _ => .bool
  | .int k _ => .int k
  | .uint k _ => .uint k
  | .float32 _ => .float32
  | .float64 _ => .float64
  | .complex128 _ _ => .complex128
  | .string _ => .string
  | .bytes _ => .bytes
  | .time _ => .time
  | .nullString _ => .nullString
  | .nullFloat64 _ => .nullFloat64
  | .nullTime _ => .nullTime
  | .nullBool _ => .nullBool
  | .ptr t => .ptr t.typeOf
  | .ptrIface _ => .ptr .iface
  | .ptrNilIface => .ptr .iface
  | .nilPtr e => .ptr e
  | .other name _ => .other name

/-- A Go run-time panic. -/
inductive Panic where
  /-- The call `panic(msg)`. -/
  | msg (text : String)
  /-- Dereference of a nil pointer. -/
  | nilDereference
  /-- Index `i` out of range for length `len`. -/
  | indexOutOfRange (i len : Nat)
  /-- A panic raised inside package `reflect`. -/
  | reflect (text : String)
  deriving DecidableEq, Repr

/-- The type `ExprEnv`, a `map[string]interface{}`. -/
abbrev ExprEnv := GoMap.Map GoString Iface

/-- The body of the loop of `scannedToValues` at index `i`: the type switch on
`scanners[i]`, acting on `vals`. -/
def scanStep (scanners : List Iface) (vals : List Iface) (i : Nat) :
    Except Panic (List Iface) :=
  match scanners.getD i none with
  -- case *sql.NullString
  | some (.ptr (.nullString s)) =>
    if s.Valid then .ok (vals.set i (some (.string s.String))) else .ok vals
  | some (.nilPtr .nullString) => .error .nilDereference
  -- case *sql.NullFloat64
  | some (.ptr (.nullFloat64 s)) =>
    if s.Valid then .ok (vals.set i (some (.float64 s.Float64))) else .ok vals
  | some (.nilPtr .nullFloat64) => .error .nilDereference
  -- case *sql.NullTime
  | some (.ptr (.nullTime s)) =>
    if s.Valid then .ok (vals.set i (some (.time s.Time))) else .ok vals
  | some (.nilPtr .nullTime) => .error .nilDereference
  -- case *sql.NullBool
  | some (.ptr (.nullBool s)) =>
    if s.Valid then .ok (vals.set i (some (.bool s.Bool))) else .ok vals
  | some (.nilPtr .nullBool) => .error .nilDereference
  -- case *interface{}
  | some (.nilPtr .iface) => .ok vals
  | some .ptrNilIface => .ok vals
  | some (.ptrIface (.bytes s2)) => .ok (vals.set i (some (.string s2)))
  | some (.ptrIface (.ptr (.bytes s2))) => .ok (vals.set i (some (.string s2)))
  | some (.ptrIface (.nilPtr .bytes)) => .error .nilDereference
  | some (.ptrIface _) => .ok vals
  -- default
  | s => .ok (vals.set i s)

/-- The function `scannedToValues(scanners)`. -/
def scannedToValues (scanners : List Iface) : Except Panic (List Iface) :=
  (List.range scanners.length).foldlM (scanStep scanners)
    (List.replicate scanners.length none)

/-- The body of the loop of `newExprEnv`: `out[name] = values[i]`. -/
def envStep (values : List Iface) (out : ExprEnv) (p : Nat × GoString) : Except Panic ExprEnv :=
  match values[p.1]? with
  | some v => .ok (GoMap.assign out p.2 v)
  | none => .error (.indexOutOfRange p.1 values.length)

/-- The function `newExprEnv(rowSlice, columnNames)`. -/
def newExprEnv (rowSlice : List Iface) (columnNames : List GoString) : Except Panic ExprEnv :=
  match scannedToValues rowSlice with
  | .error e => .error e
  | .ok values => columnNames.enum.foldlM (envStep values) []

/-- A `reflect.Value`. -/
inductive RValue where
  /-- The zero Value. -/
  | invalid
  /-- A value of concrete type. -/
  | concrete (v : Val)
  /-- A value of type `interface{}` (kind Interface), reached through a pointer. -/
  | iface (held : Iface)
  deriving DecidableEq, Repr

/-- The function `reflect.ValueOf`. -/
def reflectValueOf : Iface → RValue
  | none => .invalid
  | some v => .concrete v

/-- The function `reflect.Indirect`: the pointee of a pointer (the zero Value
for a nil pointer), any other value unchanged. -/
def reflectIndirect : RValue → RValue
  | .concrete (.ptr t) => .concrete t
  | .concrete (.ptrIface h) => .iface (some h)
  | .concrete .ptrNilIface => .iface none
  | .concrete (.nilPtr _) => .invalid
  | v => v

/-- The method `Value.IsValid`. -/
def RValue.IsValid : RValue → Bool
  | .invalid => false
  | _ => true

/-- The method `Value.Type`; it panics on the zero Value. -/
def RValue.Type : RValue → Except Panic Ty
  | .invalid => .error (.reflect "call of reflect.Value.Type on zero Value")
  | .concrete v => .ok v.typeOf
  | .iface _ => .ok .iface

/-- The method `Type.ConvertibleTo(floatType)` with `floatType` the type
`float64`: the integer and float kinds convert. -/
def Ty.ConvertibleToFloat : Ty → Bool
  | .int _ => true
  | .uint _ => true
  | .float32 => true
  | .float64 => true
  | _ => false

/-- The numeric conversions to `float64` of the Go run time. -/
structure FloatOps where
  ofInt : Int → Float64
  ofFloat32 : Nat → Float64

/-- The expression `rVal.Convert(floatType).Float()`. -/
def RValue.ConvertFloat (fo : FloatOps) : RValue → Except Panic Float64
  | .concrete (.int _ n) => .ok (fo.ofInt n)
  | .concrete (.uint _ n) => .ok (fo.ofInt n)
  | .concrete (.float32 b) => .ok (fo.ofFloat32 b)
  | .concrete (.float64 x) => .ok x
  | _ => .error (.reflect "reflect.Value.Convert: value cannot be converted to type float64")

/-- The function `convertToFloatOrPanic(val)`. -/
def convertToFloatOrPanic (fo : FloatOps) (val : Iface) : Except Panic Float64 :=
  let rVal := reflectIndirect (reflectValueOf val)
  if !rVal.IsValid then .error (.msg "value is null")
  else
    match rVal.Type with
    | .error e => .error e
    | .ok t =>
      if !t.ConvertibleToFloat then .error (.msg "value must be float")
      else rVal.ConvertFloat fo

/-- A `pmetric.NumberDataPoint`: its double value and the raw map its attributes
were filled from. -/
structure NumberDataPoint where
  doubleValue : Float64
  attributes : GoMap.Map GoString Iface
  deriving DecidableEq, Repr

/-- The data of a `pmetric.Metric`. -/
inductive MetricData where
  | empty
  | gauge (dataPoints : List NumberDataPoint)
  | sum (dataPoints : List NumberDataPoint)
  deriving DecidableEq, Repr

/-- A `pmetric.Metric`. -/
structure PMetric where
  name : GoString
  data : MetricData
  deriving DecidableEq, Repr

/-- The method `ExprEnv.GAUGE(metric, dims, val)`. -/
def GAUGE (fo : FloatOps) (_e : ExprEnv) (metric : GoString)
    (dims : GoMap.Map GoString Iface) (val : Iface) : Except Panic PMetric :=
  match convertToFloatOrPanic fo val with
  | .error e => .error e
  | .ok x => .ok { name := metric, data := .gauge [{ doubleValue := x, attributes := dims }] }

/-- The method `ExprEnv.CUMULATIVE(metric, dims, val)`. -/
def CUMULATIVE (fo : FloatOps) (_e : ExprEnv) (metric : GoString)
    (dims : GoMap.Map GoString Iface) (val : Iface) : Except Panic PMetric :=
  match convertToFloatOrPanic fo val with
  | .error e => .error e
  | .ok x => .ok { name := metric, data := .sum [{ doubleValue := x, attributes := dims }] }

/-- Whether the type switch of `scannedToValues` dereferences a nil pointer on
the scanner: a nil pointer to one of the four `sql.Null` structs, or a pointer
to an interface that holds a nil pointer to a byte slice. -/
def derefsNil : Iface → Bool
  | some (.nilPtr .nullString) => true
  | some (.nilPtr .nullFloat64) => true
  | some (.nilPtr .nullTime) => true
  | some (.nilPtr .nullBool) => true
  | some (.ptrIface (.nilPtr .bytes)) => true
  | _ => false

/-- The entry a scanner yields, read off the case list of `scannedToValues`:
the inner value of a valid `sql.Null` struct and nil for an invalid one, the
text of the bytes held behind an interface pointer and nil for every other
interface pointer, and the scanner itself otherwise. -/
def scanResult : Iface → Iface
  | some (.ptr (.nullString s)) => if s.Valid then some (.string s.String) else none
  | some (.ptr (.nullFloat64 s)) => if s.Valid then some (.float64 s.Float64) else none
  | some (.ptr (.nullTime s)) => if s.Valid then some (.time s.Time) else none
  | some (.ptr (.nullBool s)) => if s.Valid then some (.bool s.Bool) else none
  | some (.nilPtr .iface) => none
  | some .ptrNilIface => none
  | some (.ptrIface (.bytes b)) => some (.string b)
  | some (.ptrIface (.ptr (.bytes b))) => some (.string b)
  | some (.ptrIface _) => none
  | s => s

/-- The float a value of numeric kind (signed or unsigned integer, float)
converts to; none for a value of any other kind.  Follows the wording of the
specification of `convertToFloatOrPanic`. -/
def Val.numericToFloat (fo : FloatOps) : Val → Option Float64
  | .int _ n => some (fo.ofInt n)
  | .uint _ n => some (fo.ofInt n)
  | .float32 b => some (fo.ofFloat32 b)
  | .float64 x => some x
  | _ => none

/-- The column name `"a"`. -/
def colA : GoString := [97]

/-- The column name `"b"`. -/
def colB : GoString := [98]

/-- Float conversions for instantiating the theorems: the integer itself is
taken as the bit pattern. -/
def sampleFloatOps : FloatOps := { ofInt := fun n => ⟨n.toNat⟩, ofFloat32 := fun b => ⟨b⟩ }

end Sql


/-! ## Properties of the map model -/

namespace GoMap

variable {κ ν : Type} [DecidableEq κ]

theorem get?_assign (m : Map κ ν) (k k' : κ) (v : ν) :
    get? (assign m k v) k' = if k = k' then some v else get? m k' := by
  induction m with
  | nil => simp [assign, get?]
  | cons p rest ih =>
    obtain ⟨a, b⟩ := p
    by_cases h : a = k
    · subst h
      by_cases h' : a = k' <;> simp [assign, get?, h']
    · by_cases h' : a = k'
      · subst h'
        have : ¬ k = a := fun e => h e.symm
        simp [assign, get?, h, this]
      · simp [assign, get?, h, h', ih]

theorem mem_keys_assign (m : Map κ ν) (k k' : κ) (v : ν) :
    k' ∈ keys (assign m k v) ↔ k' = k ∨ k' ∈ keys m := by
  induction m with
  | nil => simp [assign, keys]
  | cons p rest ih =>
    obtain ⟨a, b⟩ := p
    by_cases h : a = k
    · subst h
      simp [assign, keys]
    · have ih' : k' ∈ List.map Prod.fst (assign rest k v) ↔ k' = k ∨ k' ∈ List.map Prod.fst rest := ih
      simp only [assign, h, if_false, keys, List.map_cons, List.mem_cons, ih']
      tauto

theorem nodup_keys_assign (m : Map κ ν) (k : κ) (v : ν) (h : (keys m).Nodup) :
    (keys (assign m k v)).Nodup := by
  induction m with
  | nil => simp [assign, keys]
  | cons p rest ih =>
    obtain ⟨a, b⟩ := p
    have h' : a ∉ keys rest ∧ (keys rest).Nodup := by simpa [keys] using h
    by_cases hk : a = k
    · subst hk
      simpa [assign, keys] using h
    · have hmem := mem_keys_assign rest k a v
      have : a ∉ keys (assign rest k v) := by
        rw [hmem]
        rintro (e | e)
        · exact hk e
        · exact h'.1 e
      have ih' := ih h'.2
      simp only [assign, hk, if_false, keys, List.map_cons, List.nodup_cons]
      exact ⟨this, ih'⟩

theorem get?_eq_none_iff (m : Map κ ν) (k : κ) : get? m k = none ↔ k ∉ keys m := by
  induction m with
  | nil => simp [get?, keys]
  | cons p rest ih =>
    obtain ⟨a, b⟩ := p
    have ih' : get? rest k = none ↔ k ∉ List.map Prod.fst rest := ih
    by_cases h : a = k
    · subst h
      simp [get?, keys]
    · have : ¬ k = a := fun e => h e.symm
      simp [get?, keys, h, this, ih']

end GoMap

/-! ## The remote-write handler -/

namespace Transport

theorem labelLoop_cons (m : Metric) (l : Label) (ls : List Label) :
    labelLoop m (l :: ls) = labelLoop (GoMap.assign m l.Name l.Value) ls := rfl

theorem get?_labelLoop (m : Metric) (ls : List Label) (k : String) :
    GoMap.get? (labelLoop m ls) k =
      ((ls.reverse.find? (fun l => decide (l.Name = k))).map Label.Value).or (GoMap.get? m k) := by
  induction ls generalizing m with
  | nil => simp [labelLoop]
  | cons l ls ih =>
    rw [labelLoop_cons, ih, GoMap.get?_assign, List.reverse_cons, List.find?_append]
    cases hfind : List.find? (fun l => decide (l.Name = k)) ls.reverse with
    | some x => simp
    | none =>
      by_cases h : l.Name = k <;> simp [List.find?, h]

theorem mem_keys_labelLoop (m : Metric) (ls : List Label) (k : String) :
    k ∈ GoMap.keys (labelLoop m ls) ↔ k ∈ GoMap.keys m ∨ k ∈ ls.map Label.Name := by
  induction ls generalizing m with
  | nil => simp [labelLoop]
  | cons l ls ih =>
    rw [labelLoop_cons, ih, GoMap.mem_keys_assign]
    simp only [List.map_cons, List.mem_cons]
    tauto

theorem nodup_keys_labelLoop (m : Metric) (ls : List Label) (h : (GoMap.keys m).Nodup) :
    (GoMap.keys (labelLoop m ls)).Nodup := by
  induction ls generalizing m with
  | nil => simpa [labelLoop] using h
  | cons l ls ih =>
    rw [labelLoop_cons]
    exact ih _ (GoMap.nodup_keys_assign m l.Name l.Value h)

theorem len_labelLoop (ls : List Label) :
    GoMap.len (labelLoop [] ls) = (ls.map Label.Name).dedup.length := by
  have hnd : (GoMap.keys (labelLoop [] ls)).Nodup :=
    nodup_keys_labelLoop [] ls (by simp [GoMap.keys])
  have hperm : (GoMap.keys (labelLoop [] ls)).Perm (ls.map Label.Name).dedup := by
    rw [List.perm_ext_iff_of_nodup hnd (List.nodup_dedup _)]
    intro k
    rw [mem_keys_labelLoop, List.mem_dedup]
    simp [GoMap.keys]
  have := hperm.length_eq
  simpa [GoMap.keys, GoMap.len] using this

theorem labelLoop_last_occurrence_keys (labels : List Label) (k : String) :
    k ∈ GoMap.keys (labelLoop [] labels) ↔ k ∈ labels.map Label.Name := by
  rw [mem_keys_labelLoop]
  simp [GoMap.keys]

/-- Claim C8: for every label list, duplicates allowed, the mapping built by the
label loop of `handleRemoteWrite` has exactly the names of the list as keys
(each once), maps every name to the value of the last label bearing it, and
its size is the number of distinct names. -/
theorem labelLoop_last_occurrence_wins (labels : List Label) :
    (∀ k, k ∈ GoMap.keys (labelLoop [] labels) ↔ k ∈ labels.map Label.Name) ∧
    (GoMap.keys (labelLoop [] labels)).Nodup ∧
    (∀ k, GoMap.get? (labelLoop [] labels) k =
      (labels.reverse.find? (fun l => decide (l.Name = k))).map Label.Value) ∧
    GoMap.len (labelLoop [] labels) = (labels.map Label.Name).dedup.length := by
  refine ⟨?_, ?_, ?_, len_labelLoop labels⟩
  · intro k
    rw [mem_keys_labelLoop]
    simp [GoMap.keys]
  · exact nodup_keys_labelLoop [] labels (by simp [GoMap.keys])
  · intro k
    rw [get?_labelLoop]
    simp [GoMap.get?]

theorem sampleLoop_eq (st : LoopState) (samples : List Sample) :
    sampleLoop st samples =
      { m := st.m,
        out := st.out ++ samples.map (fun s => Event.printfSample s.Value s.Timestamp),
        panicked := st.panicked } := by
  induction samples generalizing st with
  | nil => simp [sampleLoop]
  | cons s ss ih =>
    have : sampleLoop st (s :: ss) =
        sampleLoop { st with out := st.out ++ [Event.printfSample s.Value s.Timestamp] } ss := rfl
    rw [this, ih]
    simp

theorem exemplarLoop_eq (st : LoopState) (exemplars : List Exemplar) :
    exemplarLoop st exemplars =
      { m := st.m,
        out := st.out ++ exemplars.map
          (fun e => Event.printfExemplar (labelLoop [] e.Labels) e.Value e.Timestamp),
        panicked := st.panicked } := by
  induction exemplars generalizing st with
  | nil => simp [exemplarLoop]
  | cons e es ih =>
    have : exemplarLoop st (e :: es) =
        exemplarLoop
          { st with out := st.out ++
              [Event.printfExemplar (labelLoop [] e.Labels) e.Value e.Timestamp] } es := rfl
    rw [this, ih]
    simp

theorem histogramLoop_eq {HP Hg : Type} (toHistogram : HP → Except String Hg)
    (histString : Hg → Except String String) (st : LoopState) (histograms : List HP) :
    histogramLoop toHistogram histString st histograms =
      { m := st.m,
        out := st.out ++ (histogramRun toHistogram histString histograms).1,
        panicked := ((histogramRun toHistogram histString histograms).2).or st.panicked } := by
  induction histograms generalizing st with
  | nil => simp [histogramLoop, histogramRun]
  | cons hp rest ih =>
    cases htext : histogramText toHistogram histString hp with
    | error msg => simp [histogramLoop, histogramRun, htext]
    | ok text =>
      simp only [histogramLoop, histogramRun, htext]
      rw [ih]
      simp

theorem seriesBody_eq {HP Hg : Type} (toHistogram : HP → Except String Hg)
    (histString : Hg → Except String String) (out : List Event) (ts : TimeSeries HP) :
    seriesBody toHistogram histString out ts =
      { m := labelLoop [] ts.Labels,
        out := out ++ (seriesRun toHistogram histString ts).1,
        panicked := (seriesRun toHistogram histString ts).2 } := by
  simp [seriesBody, seriesRun, sampleLoop_eq, exemplarLoop_eq, histogramLoop_eq]

theorem seriesLoop_eq {HP Hg : Type} (toHistogram : HP → Except String Hg)
    (histString : Hg → Except String String) (out : List Event)
    (series : List (TimeSeries HP)) :
    seriesLoop toHistogram histString out series =
      (out ++ (walkRun toHistogram histString series).1,
        (walkRun toHistogram histString series).2) := by
  induction series generalizing out with
  | nil => simp [seriesLoop, walkRun]
  | cons ts tss ih =>
    cases hp : (seriesRun toHistogram histString ts).2 with
    | some msg => simp [seriesLoop, walkRun, seriesBody_eq, hp]
    | none =>
      simp only [seriesLoop, walkRun, seriesBody_eq, hp]
      rw [ih]
      simp

theorem handleRemoteWrite_ok {HP Hg : Type}
    (decode : List Nat → Except String (WriteRequest HP))
    (toHistogram : HP → Except String Hg) (histString : Hg → Except String String)
    (r : Request) (req : WriteRequest HP) (h : decode r.Body = .ok req) :
    handleRemoteWrite decode toHistogram histString r =
      match (walkRun toHistogram histString req.Timeseries).2 with
      | some msg =>
        { out := (walkRun toHistogram histString req.Timeseries).1, panicked := some msg }
      | none =>
        { out := (walkRun toHistogram histString req.Timeseries).1 ++
            [Event.writeHeader StatusAccepted],
          panicked := none } := by
  simp only [handleRemoteWrite, h, seriesLoop_eq, List.nil_append]
  cases (walkRun toHistogram histString req.Timeseries).2 <;> rfl

theorem handleRemoteWrite_error {HP Hg : Type}
    (decode : List Nat → Except String (WriteRequest HP))
    (toHistogram : HP → Except String Hg) (histString : Hg → Except String String)
    (r : Request) (err : String) (h : decode r.Body = .error err) :
    handleRemoteWrite decode toHistogram histString r =
      { out := [Event.headerSet "Content-Type" "text/plain; charset=utf-8",
                Event.headerSet "X-Content-Type-Options" "nosniff",
                Event.writeHeader StatusBadRequest,
                Event.write (err ++ "\n")],
        panicked := none } := by
  simp [handleRemoteWrite, h, httpError]

theorem histogramRun_of_prints {HP Hg : Type} (toHistogram : HP → Except String Hg)
    (histString : Hg → Except String String) (histograms : List HP)
    (h : ∀ hp ∈ histograms, ∃ text, histogramText toHistogram histString hp = .ok text) :
    histogramRun toHistogram histString histograms =
      (histograms.map
        (fun hp => Event.printfHistogram (histogramTextOr toHistogram histString hp)), none) := by
  induction histograms with
  | nil => rfl
  | cons hp rest ih =>
    obtain ⟨text, htext⟩ := h hp (List.mem_cons_self _ _)
    have ih' := ih (fun x hx => h x (List.mem_cons_of_mem _ hx))
    simp [histogramRun, histogramTextOr, htext, ih']

theorem seriesRun_of_prints {HP Hg : Type} (toHistogram : HP → Except String Hg)
    (histString : Hg → Except String String) (ts : TimeSeries HP)
    (h : ∀ hp ∈ ts.Histograms, ∃ text, histogramText toHistogram histString hp = .ok text) :
    seriesRun toHistogram histString ts =
      (seriesEvents (histogramTextOr toHistogram histString) ts, none) := by
  simp [seriesRun, seriesEvents, histogramRun_of_prints toHistogram histString ts.Histograms h]

theorem walkRun_of_prints {HP Hg : Type} (toHistogram : HP → Except String Hg)
    (histString : Hg → Except String String) (series : List (TimeSeries HP))
    (h : ∀ ts ∈ series, ∀ hp ∈ ts.Histograms,
      ∃ text, histogramText toHistogram histString hp = .ok text) :
    walkRun toHistogram histString series =
      (series.flatMap (seriesEvents (histogramTextOr toHistogram histString)), none) := by
  induction series with
  | nil => rfl
  | cons ts tss ih =>
    have hts := seriesRun_of_prints toHistogram histString ts (h ts (List.mem_cons_self _ _))
    have ih' := ih (fun x hx => h x (List.mem_cons_of_mem _ hx))
    simp [walkRun, hts, ih']

theorem handleRemoteWrite_of_prints {HP Hg : Type}
    (decode : List Nat → Except String (WriteRequest HP))
    (toHistogram : HP → Except String Hg) (histString : Hg → Except String String)
    (r : Request) (req : WriteRequest HP) (h : decode r.Body = .ok req)
    (hprints : ∀ ts ∈ req.Timeseries, ∀ hp ∈ ts.Histograms,
      ∃ text, histogramText toHistogram histString hp = .ok text) :
    handleRemoteWrite decode toHistogram histString r =
      { out := req.Timeseries.flatMap (seriesEvents (histogramTextOr toHistogram histString)) ++
          [Event.writeHeader StatusAccepted],
        panicked := none } := by
  rw [handleRemoteWrite_ok decode toHistogram histString r req h,
    walkRun_of_prints toHistogram histString req.Timeseries hprints]

theorem isEntity_seriesEvents {HP : Type} (text : HP → String) (ts : TimeSeries HP) :
    ∀ e ∈ seriesEvents text ts, e.isEntity = true := by
  intro e he
  simp only [seriesEvents, List.mem_cons, List.mem_append, List.mem_map] at he
  rcases he with rfl | ⟨s, _, rfl⟩ | ⟨x, _, rfl⟩ | ⟨hp, _, rfl⟩ <;> rfl

theorem isEntity_flatMap_seriesEvents {HP : Type} (text : HP → String)
    (series : List (TimeSeries HP)) :
    ∀ e ∈ series.flatMap (seriesEvents text), e.isEntity = true := by
  intro e he
  rw [List.mem_flatMap] at he
  obtain ⟨ts, _, hts⟩ := he
  exact isEntity_seriesEvents text ts e hts

theorem length_seriesEvents {HP : Type} (text : HP → String) (ts : TimeSeries HP) :
    (seriesEvents text ts).length = ts.entityCount := by
  simp [seriesEvents, TimeSeries.entityCount]
  omega

theorem length_flatMap_seriesEvents {HP : Type} (text : HP → String)
    (series : List (TimeSeries HP)) :
    (series.flatMap (seriesEvents text)).length =
      (series.map TimeSeries.entityCount).sum := by
  induction series with
  | nil => rfl
  | cons ts tss ih => simp [List.flatMap_cons, length_seriesEvents, ih]

theorem histogramRun_events {HP Hg : Type} (toHistogram : HP → Except String Hg)
    (histString : Hg → Except String String) (histograms : List HP) :
    ∀ e ∈ (histogramRun toHistogram histString histograms).1,
      ∃ text, e = Event.printfHistogram text := by
  induction histograms with
  | nil => simp [histogramRun]
  | cons hp rest ih =>
    cases htext : histogramText toHistogram histString hp with
    | error msg => simp [histogramRun, htext]
    | ok text =>
      intro e he
      simp only [histogramRun, htext, List.mem_cons] at he
      rcases he with rfl | he
      · exact ⟨text, rfl⟩
      · exact ih e he

theorem isEntity_seriesRun {HP Hg : Type} (toHistogram : HP → Except String Hg)
    (histString : Hg → Except String String) (ts : TimeSeries HP) :
    ∀ e ∈ (seriesRun toHistogram histString ts).1, e.isEntity = true := by
  intro e he
  simp only [seriesRun, List.mem_cons, List.mem_append, List.mem_map] at he
  rcases he with rfl | ⟨s, _, rfl⟩ | ⟨x, _, rfl⟩ | he
  · rfl
  · rfl
  · rfl
  · obtain ⟨text, rfl⟩ := histogramRun_events toHistogram histString ts.Histograms e he
    rfl

theorem isEntity_walkRun {HP Hg : Type} (toHistogram : HP → Except String Hg)
    (histString : Hg → Except String String) (series : List (TimeSeries HP)) :
    ∀ e ∈ (walkRun toHistogram histString series).1, e.isEntity = true := by
  induction series with
  | nil => simp [walkRun]
  | cons ts tss ih =>
    intro e he
    cases hp : (seriesRun toHistogram histString ts).2 with
    | some msg =>
      simp only [walkRun, hp] at he
      exact isEntity_seriesRun toHistogram histString ts e he
    | none =>
      simp only [walkRun, hp, List.mem_append] at he
      rcases he with he | he
      · exact isEntity_seriesRun toHistogram histString ts e he
      · exact ih e he

theorem walkRun_length_pos {HP Hg : Type} (toHistogram : HP → Except String Hg)
    (histString : Hg → Except String String) (series : List (TimeSeries HP))
    (hne : series ≠ []) : 0 < (walkRun toHistogram histString series).1.length := by
  cases series with
  | nil => exact absurd rfl hne
  | cons ts tss =>
    have hrun : 0 < (seriesRun toHistogram histString ts).1.length := by
      simp [seriesRun]
    cases hp : (seriesRun toHistogram histString ts).2 with
    | some msg =>
      simp only [walkRun, hp]
      exact hrun
    | none =>
      simp only [walkRun, hp, List.length_append]
      omega

theorem writeHeaderCalls_append (a b : List Event) :
    writeHeaderCalls (a ++ b) = writeHeaderCalls a ++ writeHeaderCalls b := by
  induction a with
  | nil => rfl
  | cons e a ih => cases e <;> simp [writeHeaderCalls, ih]

theorem responseBody_append (a b : List Event) :
    responseBody (a ++ b) = responseBody a ++ responseBody b := by
  induction a with
  | nil => simp [responseBody]
  | cons e a ih => cases e <;> simp [responseBody, ih, String.append_assoc]

theorem reporterCalls_append (a b : List Event) :
    reporterCalls (a ++ b) = reporterCalls a ++ reporterCalls b := by
  induction a with
  | nil => rfl
  | cons e a ih => cases e <;> simp [reporterCalls, ih]

theorem writeHeaderCalls_of_entities (l : List Event) (h : ∀ e ∈ l, e.isEntity = true) :
    writeHeaderCalls l = [] := by
  induction l with
  | nil => rfl
  | cons e l ih =>
    have he := h e (List.mem_cons_self _ _)
    have hl := ih (fun x hx => h x (List.mem_cons_of_mem _ hx))
    cases e <;> simp_all [writeHeaderCalls, Event.isEntity]

theorem responseBody_of_entities (l : List Event) (h : ∀ e ∈ l, e.isEntity = true) :
    responseBody l = "" := by
  induction l with
  | nil => rfl
  | cons e l ih =>
    have he := h e (List.mem_cons_self _ _)
    have hl := ih (fun x hx => h x (List.mem_cons_of_mem _ hx))
    cases e <;> simp_all [responseBody, Event.isEntity]

theorem reporterCalls_of_entities (l : List Event) (h : ∀ e ∈ l, e.isEntity = true) :
    reporterCalls l = [] := by
  induction l with
  | nil => rfl
  | cons e l ih =>
    have he := h e (List.mem_cons_self _ _)
    have hl := ih (fun x hx => h x (List.mem_cons_of_mem _ hx))
    cases e <;> simp_all [reporterCalls, Event.isEntity]

theorem responseHeader_of_entities (key : String) (l : List Event)
    (h : ∀ e ∈ l, e.isEntity = true) : responseHeader key l = none := by
  induction l with
  | nil => rfl
  | cons e l ih =>
    have he := h e (List.mem_cons_self _ _)
    have hl := ih (fun x hx => h x (List.mem_cons_of_mem _ hx))
    cases e <;> simp_all [responseHeader, Event.isEntity]

theorem responseHeader_append_writeHeader (key : String) (l : List Event) (c : Nat) :
    responseHeader key (l ++ [Event.writeHeader c]) = responseHeader key l := by
  induction l with
  | nil => rfl
  | cons e l ih => cases e <;> simp [responseHeader, ih]

theorem seriesSeenAux_samples (samples : List Sample) (rest : List Event) :
    seriesSeenAux (samples.map (fun s => Event.printfSample s.Value s.Timestamp) ++ rest) =
      (samples ++ (seriesSeenAux rest).1, (seriesSeenAux rest).2) := by
  induction samples with
  | nil => simp
  | cons s ss ih => simp [seriesSeenAux, ih]

theorem seriesSeenAux_exemplars (exemplars : List Exemplar) (rest : List Event) :
    seriesSeenAux
        (exemplars.map
          (fun e => Event.printfExemplar (labelLoop [] e.Labels) e.Value e.Timestamp) ++ rest) =
      seriesSeenAux rest := by
  induction exemplars with
  | nil => simp
  | cons e es ih => simpa [seriesSeenAux] using ih

theorem seriesSeenAux_histograms {HP : Type} (f : HP → String) (histograms : List HP)
    (rest : List Event) :
    seriesSeenAux (histograms.map (fun hp => Event.printfHistogram (f hp)) ++ rest) =
      seriesSeenAux rest := by
  induction histograms with
  | nil => simp
  | cons h hs ih => simpa [seriesSeenAux] using ih

theorem seriesSeenAux_seriesEvents {HP : Type} (text : HP → String) (ts : TimeSeries HP)
    (rest : List Event) :
    seriesSeenAux (seriesEvents text ts ++ rest) =
      ([], (labelLoop [] ts.Labels, ts.Samples ++ (seriesSeenAux rest).1) ::
        (seriesSeenAux rest).2) := by
  have hh := seriesSeenAux_histograms text ts.Histograms rest
  have hstep : seriesSeenAux (seriesEvents text ts ++ rest) =
      ([], (labelLoop [] ts.Labels,
          (seriesSeenAux
            (ts.Samples.map (fun s => Event.printfSample s.Value s.Timestamp) ++
              (ts.Exemplars.map
                  (fun e => Event.printfExemplar (labelLoop [] e.Labels) e.Value e.Timestamp) ++
                (ts.Histograms.map (fun hp => Event.printfHistogram (text hp)) ++
                  rest)))).1) ::
        (seriesSeenAux
            (ts.Samples.map (fun s => Event.printfSample s.Value s.Timestamp) ++
              (ts.Exemplars.map
                  (fun e => Event.printfExemplar (labelLoop [] e.Labels) e.Value e.Timestamp) ++
                (ts.Histograms.map (fun hp => Event.printfHistogram (text hp)) ++
                  rest)))).2) := by
    simp [seriesEvents, seriesSeenAux]
  rw [hstep, seriesSeenAux_samples, seriesSeenAux_exemplars, hh]

theorem seriesSeenAux_flatMap {HP : Type} (text : HP → String)
    (series : List (TimeSeries HP)) (rest : List Event)
    (hrest : (seriesSeenAux rest).1 = []) :
    seriesSeenAux (series.flatMap (seriesEvents text) ++ rest) =
      ([], series.map (fun ts => (labelLoop [] ts.Labels, ts.Samples)) ++
        (seriesSeenAux rest).2) := by
  induction series with
  | nil =>
    simp only [List.flatMap_nil, List.nil_append, List.map_nil]
    exact Prod.ext hrest rfl
  | cons ts tss ih =>
    rw [List.flatMap_cons, List.append_assoc, seriesSeenAux_seriesEvents, ih]
    simp

theorem seriesSeen_handleRemoteWrite {HP Hg : Type}
    (decode : List Nat → Except String (WriteRequest HP))
    (toHistogram : HP → Except String Hg) (histString : Hg → Except String String)
    (r : Request) (req : WriteRequest HP) (h : decode r.Body = .ok req)
    (hprints : ∀ ts ∈ req.Timeseries, ∀ hp ∈ ts.Histograms,
      ∃ text, histogramText toHistogram histString hp = .ok text) :
    seriesSeen (handleRemoteWrite decode toHistogram histString r).out =
      req.Timeseries.map (fun ts => (labelLoop [] ts.Labels, ts.Samples)) := by
  rw [handleRemoteWrite_of_prints decode toHistogram histString r req h hprints, seriesSeen,
    seriesSeenAux_flatMap (histogramTextOr toHistogram histString) req.Timeseries
      [Event.writeHeader StatusAccepted] rfl]
  simp [seriesSeenAux]

theorem exemplarsSeen_append (a b : List Event) :
    exemplarsSeen (a ++ b) = exemplarsSeen a ++ exemplarsSeen b := by
  induction a with
  | nil => rfl
  | cons e a ih => cases e <;> simp [exemplarsSeen, ih]

theorem exemplarsSeen_histogram_events (l : List Event)
    (h : ∀ e ∈ l, ∃ text, e = Event.printfHistogram text) : exemplarsSeen l = [] := by
  induction l with
  | nil => rfl
  | cons e l ih =>
    obtain ⟨text, rfl⟩ := h e (List.mem_cons_self _ _)
    simpa [exemplarsSeen] using ih (fun x hx => h x (List.mem_cons_of_mem _ hx))

theorem exemplarsSeen_seriesRun {HP Hg : Type} (toHistogram : HP → Except String Hg)
    (histString : Hg → Except String String) (ts : TimeSeries HP) :
    exemplarsSeen (seriesRun toHistogram histString ts).1 =
      ts.Exemplars.map (fun e => (labelLoop [] e.Labels, e.Value, e.Timestamp)) := by
  have h1 : ∀ ss : List Sample,
      exemplarsSeen (ss.map (fun s => Event.printfSample s.Value s.Timestamp)) = [] := by
    intro ss
    induction ss with
    | nil => rfl
    | cons s ss ih => simpa [exemplarsSeen] using ih
  have h2 : ∀ es : List Exemplar,
      exemplarsSeen
          (es.map (fun e => Event.printfExemplar (labelLoop [] e.Labels) e.Value e.Timestamp)) =
        es.map (fun e => (labelLoop [] e.Labels, e.Value, e.Timestamp)) := by
    intro es
    induction es with
    | nil => rfl
    | cons e es ih => simpa [exemplarsSeen] using ih
  have h3 := exemplarsSeen_histogram_events _
    (histogramRun_events toHistogram histString ts.Histograms)
  simp [seriesRun, exemplarsSeen, exemplarsSeen_append, h1, h2, h3]

theorem find?_reverse_of_nodup (labels : List Label) (h : (labels.map Label.Name).Nodup)
    (k : String) (l : Label) :
    labels.reverse.find? (fun l => decide (l.Name = k)) = some l ↔ l ∈ labels ∧ l.Name = k := by
  constructor
  · intro hf
    have h1 := List.find?_some hf
    have h2 := List.mem_of_find?_eq_some hf
    exact ⟨by simpa using h2, by simpa using h1⟩
  · rintro ⟨hmem, hname⟩
    cases hf : labels.reverse.find? (fun l => decide (l.Name = k)) with
    | none =>
      rw [List.find?_eq_none] at hf
      have := hf l (by simpa using hmem)
      simp [hname] at this
    | some l' =>
      have h1 := List.find?_some hf
      have h2 : l' ∈ labels := by simpa using List.mem_of_find?_eq_some hf
      have hn : l'.Name = l.Name := by
        have : l'.Name = k := by simpa using h1
        rw [this, hname]
      rw [List.inj_on_of_nodup_map h h2 hmem hn]

theorem get?_labelLoop_of_nodup (labels : List Label) (h : (labels.map Label.Name).Nodup)
    (k v : String) :
    GoMap.get? (labelLoop [] labels) k = some v ↔ ({ Name := k, Value := v } : Label) ∈ labels := by
  rw [get?_labelLoop]
  simp only [GoMap.get?, Option.or_none, Option.map_eq_some']
  constructor
  · rintro ⟨l, hl, rfl⟩
    obtain ⟨hmem, rfl⟩ := (find?_reverse_of_nodup labels h k l).1 hl
    exact hmem
  · intro hmem
    exact ⟨_, (find?_reverse_of_nodup labels h k _).2 ⟨hmem, rfl⟩, rfl⟩

/-- Claim C1: when the body fails to decode, `handleRemoteWrite` returns without
a panic and answers with status 400, written once, a plain-text body that is
the decode error's message and a newline; it emits no label map, sample,
exemplar or histogram, and never writes status 202. -/
theorem handleRemoteWrite_decode_error {HP Hg : Type}
    (decode : List Nat → Except String (WriteRequest HP))
    (toHistogram : HP → Except String Hg) (histString : Hg → Except String String)
    (r : Request) (err : String) (h : decode r.Body = .error err) :
    (handleRemoteWrite decode toHistogram histString r).panicked = none ∧
    responseStatus (handleRemoteWrite decode toHistogram histString r).out = some 400 ∧
    writeHeaderCalls (handleRemoteWrite decode toHistogram histString r).out = [400] ∧
    responseHeader "Content-Type" (handleRemoteWrite decode toHistogram histString r).out =
      some "text/plain; charset=utf-8" ∧
    responseBody (handleRemoteWrite decode toHistogram histString r).out = err ++ "\n" ∧
    (∀ e ∈ (handleRemoteWrite decode toHistogram histString r).out, e.isEntity = false) ∧
    seriesSeen (handleRemoteWrite decode toHistogram histString r).out = [] ∧
    202 ∉ writeHeaderCalls (handleRemoteWrite decode toHistogram histString r).out := by
  rw [handleRemoteWrite_error decode toHistogram histString r err h]
  refine ⟨rfl, rfl, rfl, ?_, ?_, ?_, rfl, ?_⟩
  · simp [responseHeader]
  · simp [responseBody]
  · intro e he
    simp only [List.mem_cons, List.mem_singleton, List.not_mem_nil, or_false] at he
    rcases he with rfl | rfl | rfl | rfl <;> rfl
  · simp [writeHeaderCalls, StatusBadRequest]

/-- Witness of claim C1: a decoder that rejects every body, on the empty body. -/
theorem handleRemoteWrite_decode_error_witness :
    rejectingDecode (Request.mk []).Body = .error "snappy: corrupt input" ∧
    responseStatus
        (handleRemoteWrite rejectingDecode sampleToHistogram sampleHistString
          (Request.mk [])).out = some 400 :=
  ⟨rfl, (handleRemoteWrite_decode_error rejectingDecode sampleToHistogram sampleHistString
      (Request.mk []) "snappy: corrupt input" rfl).2.1⟩

/-- Counterexample to claim C2: a request that decodes, whose first series
carries a histogram on which the library panics.  The handler ends with that
panic; `WriteHeader` is never called, so no status 202 is written. -/
theorem handleRemoteWrite_panic_no_status :
    panickingDecode (Request.mk [1]).Body = .ok panickingRequest ∧
    (handleRemoteWrite panickingDecode sampleToHistogram sampleHistString
        (Request.mk [1])).panicked = some "runtime error: index out of range" ∧
    writeHeaderCalls
        (handleRemoteWrite panickingDecode sampleToHistogram sampleHistString
          (Request.mk [1])).out = [] ∧
    responseStatus
        (handleRemoteWrite panickingDecode sampleToHistogram sampleHistString
          (Request.mk [1])).out = none :=
  ⟨rfl, by decide, by decide, by decide⟩

/-- Claim C2, amended: when the body decodes and the library converts and prints
every histogram of the request without a panic, whatever else the series hold,
`handleRemoteWrite` returns and writes status 202 exactly once, as its last
effect after every entity of every series has been walked, and writes no body
and no header. -/
theorem handleRemoteWrite_accepted {HP Hg : Type}
    (decode : List Nat → Except String (WriteRequest HP))
    (toHistogram : HP → Except String Hg) (histString : Hg → Except String String)
    (r : Request) (req : WriteRequest HP) (h : decode r.Body = .ok req)
    (hprints : ∀ ts ∈ req.Timeseries, ∀ hp ∈ ts.Histograms,
      ∃ text, histogramText toHistogram histString hp = .ok text) :
    (handleRemoteWrite decode toHistogram histString r).panicked = none ∧
    writeHeaderCalls (handleRemoteWrite decode toHistogram histString r).out = [202] ∧
    responseStatus (handleRemoteWrite decode toHistogram histString r).out = some 202 ∧
    responseBody (handleRemoteWrite decode toHistogram histString r).out = "" ∧
    (∀ key,
      responseHeader key (handleRemoteWrite decode toHistogram histString r).out = none) ∧
    ∃ walked, (handleRemoteWrite decode toHistogram histString r).out =
        walked ++ [Event.writeHeader 202] ∧
      (∀ e ∈ walked, e.isEntity = true) ∧
      walked.length = (req.Timeseries.map TimeSeries.entityCount).sum := by
  rw [handleRemoteWrite_of_prints decode toHistogram histString r req h hprints]
  have hent := isEntity_flatMap_seriesEvents (histogramTextOr toHistogram histString)
    req.Timeseries
  have hcalls : writeHeaderCalls
      (req.Timeseries.flatMap (seriesEvents (histogramTextOr toHistogram histString)) ++
        [Event.writeHeader StatusAccepted]) = [202] := by
    rw [writeHeaderCalls_append, writeHeaderCalls_of_entities _ hent]
    rfl
  refine ⟨rfl, hcalls, ?_, ?_, ?_, _, rfl, hent, ?_⟩
  · simp [responseStatus, hcalls]
  · show responseBody (_ ++ _) = ""
    rw [responseBody_append, responseBody_of_entities _ hent]
    rfl
  · intro key
    show responseHeader key (_ ++ _) = none
    rw [responseHeader_append_writeHeader, responseHeader_of_entities _ _ hent]
  · exact length_flatMap_seriesEvents _ req.Timeseries

/-- Witness of the amended claim C2: a request of two series, one of them
without points, the other with a histogram that prints. -/
theorem handleRemoteWrite_accepted_witness :
    acceptingDecode (Request.mk [1]).Body = .ok sampleRequest ∧
    (∀ ts ∈ sampleRequest.Timeseries, ∀ hp ∈ ts.Histograms,
      ∃ text, histogramText sampleToHistogram sampleHistString hp = .ok text) ∧
    writeHeaderCalls
        (handleRemoteWrite acceptingDecode sampleToHistogram sampleHistString
          (Request.mk [1])).out = [202] :=
  ⟨rfl, by simp [sampleRequest, histogramText, sampleToHistogram, sampleHistString],
    (handleRemoteWrite_accepted acceptingDecode sampleToHistogram sampleHistString
      (Request.mk [1]) sampleRequest rfl
      (by simp [sampleRequest, histogramText, sampleToHistogram, sampleHistString])).2.1⟩

/-- Counterexample to claim C3: a decoded request of two series with unique
label names, the first carrying a histogram on which the library panics.  The
handler prints one series map, not two. -/
theorem handleRemoteWrite_series_cut_short :
    panickingDecode (Request.mk [2]).Body = .ok panickingRequest ∧
    (∀ ts ∈ panickingRequest.Timeseries, (ts.Labels.map Label.Name).Nodup) ∧
    panickingRequest.Timeseries.length = 2 ∧
    seriesSeen
        (handleRemoteWrite panickingDecode sampleToHistogram sampleHistString
          (Request.mk [2])).out = [([("a", "1")], [])] :=
  ⟨rfl, by simp [panickingRequest], rfl, by decide⟩

/-- Claim C3, amended: for a decoded request of N series whose label names are
unique within each series and whose histograms the library converts and prints
without a panic, the handler prints exactly N series maps, in input order; each
has the entries of its series' label list and nothing else, and is followed by
that series' samples in request order. -/
theorem handleRemoteWrite_series_extraction {HP Hg : Type}
    (decode : List Nat → Except String (WriteRequest HP))
    (toHistogram : HP → Except String Hg) (histString : Hg → Except String String)
    (r : Request) (req : WriteRequest HP) (h : decode r.Body = .ok req)
    (huniq : ∀ ts ∈ req.Timeseries, (ts.Labels.map Label.Name).Nodup)
    (hprints : ∀ ts ∈ req.Timeseries, ∀ hp ∈ ts.Histograms,
      ∃ text, histogramText toHistogram histString hp = .ok text) :
    (seriesSeen (handleRemoteWrite decode toHistogram histString r).out).length =
      req.Timeseries.length ∧
    List.Forall₂
      (fun (g : Metric × List Sample) (ts : TimeSeries HP) =>
        (∀ k v, GoMap.get? g.1 k = some v ↔ ({ Name := k, Value := v } : Label) ∈ ts.Labels) ∧
        (∀ k, k ∈ GoMap.keys g.1 ↔ k ∈ ts.Labels.map Label.Name) ∧
        GoMap.len g.1 = ts.Labels.length ∧
        g.2 = ts.Samples)
      (seriesSeen (handleRemoteWrite decode toHistogram histString r).out) req.Timeseries := by
  rw [seriesSeen_handleRemoteWrite decode toHistogram histString r req h hprints]
  refine ⟨by simp, ?_⟩
  rw [List.forall₂_map_left_iff]
  apply List.forall₂_same.2
  intro ts hts
  have hnd := huniq ts hts
  refine ⟨fun k v => get?_labelLoop_of_nodup ts.Labels hnd k v, ?_, ?_, rfl⟩
  · exact (labelLoop_last_occurrence_keys ts.Labels)
  · rw [len_labelLoop, hnd.dedup, List.length_map]

/-- Witness of the amended claim C3: two series with unique label names and a
histogram that prints. -/
theorem handleRemoteWrite_series_extraction_witness :
    acceptingDecode (Request.mk [3]).Body = .ok sampleRequest ∧
    (∀ ts ∈ sampleRequest.Timeseries, (ts.Labels.map Label.Name).Nodup) ∧
    (∀ ts ∈ sampleRequest.Timeseries, ∀ hp ∈ ts.Histograms,
      ∃ text, histogramText sampleToHistogram sampleHistString hp = .ok text) ∧
    (seriesSeen
        (handleRemoteWrite acceptingDecode sampleToHistogram sampleHistString
          (Request.mk [3])).out).length = sampleRequest.Timeseries.length :=
  ⟨rfl, by simp [sampleRequest],
    by simp [sampleRequest, histogramText, sampleToHistogram, sampleHistString],
    (handleRemoteWrite_series_extraction acceptingDecode sampleToHistogram sampleHistString
      (Request.mk [3]) sampleRequest rfl (by simp [sampleRequest])
      (by simp [sampleRequest, histogramText, sampleToHistogram, sampleHistString])).1⟩

/-- Claim C4: the mapping printed for an exemplar is built from the exemplar's
own labels alone: its keys are exactly the exemplar's label names, so a name of
the parent series is absent unless the exemplar carries it; and the exemplar
loop leaves the series-level mapping as it was. -/
theorem exemplar_mapping_independent {HP Hg : Type} (toHistogram : HP → Except String Hg)
    (histString : Hg → Except String String) (out : List Event) (ts : TimeSeries HP) :
    List.Forall₂
      (fun (g : Metric × Float64 × Int) (e : Exemplar) =>
        (∀ k, k ∈ GoMap.keys g.1 ↔ k ∈ e.Labels.map Label.Name) ∧
        (∀ k, GoMap.get? g.1 k =
          (e.Labels.reverse.find? (fun l => decide (l.Name = k))).map Label.Value) ∧
        (∀ k, k ∈ ts.Labels.map Label.Name → k ∉ e.Labels.map Label.Name →
          GoMap.get? g.1 k = none) ∧
        g.2 = (e.Value, e.Timestamp))
      (exemplarsSeen (seriesBody toHistogram histString [] ts).out) ts.Exemplars ∧
    (∀ (st : LoopState) (es : List Exemplar), (exemplarLoop st es).m = st.m) ∧
    (seriesBody toHistogram histString out ts).m = labelLoop [] ts.Labels := by
  refine ⟨?_, ?_, ?_⟩
  · rw [seriesBody_eq]
    show List.Forall₂ _ (exemplarsSeen ([] ++ (seriesRun toHistogram histString ts).1)) _
    rw [List.nil_append, exemplarsSeen_seriesRun, List.forall₂_map_left_iff]
    apply List.forall₂_same.2
    intro e _
    refine ⟨labelLoop_last_occurrence_keys e.Labels, ?_, ?_, rfl⟩
    · intro k
      rw [get?_labelLoop]
      simp [GoMap.get?]
    · intro k _ hk
      rw [GoMap.get?_eq_none_iff]
      exact fun hmem => hk ((labelLoop_last_occurrence_keys e.Labels k).1 hmem)
  · intro st es
    rw [exemplarLoop_eq]
  · rw [seriesBody_eq]

/-- Counterexample to claim C5: a request that decodes and holds two series is
answered with 202; status 429 is not written, no `Retry-After` header is set,
and its entities are processed. -/
theorem handleRemoteWrite_no_rejection :
    responseStatus
        (handleRemoteWrite acceptingDecode sampleToHistogram sampleHistString
          (Request.mk [1])).out = some 202 ∧
    429 ∉ writeHeaderCalls
        (handleRemoteWrite acceptingDecode sampleToHistogram sampleHistString
          (Request.mk [1])).out ∧
    responseHeader "Retry-After"
        (handleRemoteWrite acceptingDecode sampleToHistogram sampleHistString
          (Request.mk [1])).out = none ∧
    seriesSeen
        (handleRemoteWrite acceptingDecode sampleToHistogram sampleHistString
          (Request.mk [1])).out =
      [([("job", "a"), ("env", "p")], [⟨⟨1⟩, 10⟩, ⟨⟨2⟩, 5⟩]), ([("job", "b")], [])] := by
  decide

/-- Claim C5, amended: the handler takes no dispatch queue and applies no
admission control.  A request that decodes and holds at least one series is
never rejected: status 429 is not written, no `Retry-After` header is set, at
least one entity is processed, and when the handler returns the status is
202. -/
theorem handleRemoteWrite_no_admission_control {HP Hg : Type}
    (decode : List Nat → Except String (WriteRequest HP))
    (toHistogram : HP → Except String Hg) (histString : Hg → Except String String)
    (r : Request) (req : WriteRequest HP)
    (h : decode r.Body = .ok req) (hne : req.Timeseries ≠ []) :
    429 ∉ writeHeaderCalls (handleRemoteWrite decode toHistogram histString r).out ∧
    responseStatus (handleRemoteWrite decode toHistogram histString r).out ≠ some 429 ∧
    responseHeader "Retry-After" (handleRemoteWrite decode toHistogram histString r).out =
      none ∧
    0 < ((handleRemoteWrite decode toHistogram histString r).out.filter
      Event.isEntity).length ∧
    ((handleRemoteWrite decode toHistogram histString r).panicked = none →
      responseStatus (handleRemoteWrite decode toHistogram histString r).out = some 202) := by
  rw [handleRemoteWrite_ok decode toHistogram histString r req h]
  have hent := isEntity_walkRun toHistogram histString req.Timeseries
  have hpos := walkRun_length_pos toHistogram histString req.Timeseries hne
  have hcalls := writeHeaderCalls_of_entities _ hent
  have hhead := responseHeader_of_entities "Retry-After" _ hent
  have hfilter := List.filter_eq_self.2 hent
  cases hp : (walkRun toHistogram histString req.Timeseries).2 with
  | some msg =>
    refine ⟨?_, ?_, hhead, ?_, ?_⟩
    · show 429 ∉ writeHeaderCalls (walkRun toHistogram histString req.Timeseries).1
      simp [hcalls]
    · show responseStatus (walkRun toHistogram histString req.Timeseries).1 ≠ some 429
      simp [responseStatus, hcalls]
    · show 0 < ((walkRun toHistogram histString req.Timeseries).1.filter
        Event.isEntity).length
      rw [hfilter]
      exact hpos
    · intro hnone
      cases hnone
  | none =>
    have hcalls' : writeHeaderCalls
        ((walkRun toHistogram histString req.Timeseries).1 ++
          [Event.writeHeader StatusAccepted]) = [202] := by
      rw [writeHeaderCalls_append, hcalls]
      rfl
    refine ⟨?_, ?_, ?_, ?_, ?_⟩
    · show 429 ∉ writeHeaderCalls (_ ++ _)
      simp [hcalls']
    · show responseStatus (_ ++ _) ≠ some 429
      simp [responseStatus, hcalls']
    · show responseHeader "Retry-After" (_ ++ _) = none
      rw [responseHeader_append_writeHeader, hhead]
    · show 0 < (List.filter Event.isEntity (_ ++ _)).length
      rw [List.filter_append, hfilter, List.length_append]
      omega
    · intro _
      show responseStatus (_ ++ _) = some 202
      simp [responseStatus, hcalls']

/-- Witness of the amended claim C5. -/
theorem handleRemoteWrite_no_admission_control_witness :
    acceptingDecode (Request.mk [2]).Body = .ok sampleRequest ∧
    sampleRequest.Timeseries ≠ [] ∧
    429 ∉ writeHeaderCalls
        (handleRemoteWrite acceptingDecode sampleToHistogram sampleHistString
          (Request.mk [2])).out :=
  ⟨rfl, by simp [sampleRequest],
    (handleRemoteWrite_no_admission_control acceptingDecode sampleToHistogram sampleHistString
      (Request.mk [2]) sampleRequest rfl (by simp [sampleRequest])).1⟩

/-- Counterexample to claim C6: on a body that fails to decode the handler makes
no call on a Reporter, so the calls are not the three the claim lists. -/
theorem handleRemoteWrite_no_reporter_call :
    rejectingDecode (Request.mk []).Body = .error "snappy: corrupt input" ∧
    reporterCalls
        (handleRemoteWrite rejectingDecode sampleToHistogram sampleHistString
          (Request.mk [])).out = [] ∧
    (reporterCalls
        (handleRemoteWrite rejectingDecode sampleToHistogram sampleHistString
          (Request.mk [])).out).length ≠ 3 :=
  ⟨rfl, by decide, by decide⟩

/-- Claim C6, amended: for every request whose body fails to decode the handler
makes no call on a Reporter (it holds none); the failure is reported through the
response alone, status 400 with the decode error's message. -/
theorem handleRemoteWrite_decode_error_reporter {HP Hg : Type}
    (decode : List Nat → Except String (WriteRequest HP))
    (toHistogram : HP → Except String Hg) (histString : Hg → Except String String)
    (r : Request) (err : String) (h : decode r.Body = .error err) :
    reporterCalls (handleRemoteWrite decode toHistogram histString r).out = [] ∧
    responseStatus (handleRemoteWrite decode toHistogram histString r).out = some 400 ∧
    responseBody (handleRemoteWrite decode toHistogram histString r).out = err ++ "\n" := by
  rw [handleRemoteWrite_error decode toHistogram histString r err h]
  refine ⟨rfl, rfl, ?_⟩
  simp [responseBody]

/-- Witness of the amended claim C6. -/
theorem handleRemoteWrite_decode_error_reporter_witness :
    rejectingDecode (Request.mk [9]).Body = .error "snappy: corrupt input" ∧
    reporterCalls
        (handleRemoteWrite rejectingDecode sampleToHistogram sampleHistString
          (Request.mk [9])).out = [] :=
  ⟨rfl, (handleRemoteWrite_decode_error_reporter rejectingDecode sampleToHistogram
      sampleHistString (Request.mk [9]) "snappy: corrupt input" rfl).1⟩

end Transport

/-! ## The SQL expression glue -/

namespace Sql

/-- Claim C9: `convertToFloatOrPanic` returns a float exactly when the value,
after one pointer indirection, is of integer or float kind, and then the float
is that number converted; it panics with "value is null" exactly on nil and on
a nil pointer, and with "value must be float" on every other value.  `GAUGE` and
`CUMULATIVE` panic on the same values and otherwise yield one data point
holding the float. -/
theorem convertToFloatOrPanic_spec (fo : FloatOps) (val : Iface) :
    (convertToFloatOrPanic fo val = .error (.msg "value is null") ↔
      (val = none ∨ ∃ t, val = some (.nilPtr t))) ∧
    (∀ x, convertToFloatOrPanic fo val = .ok x ↔
      ∃ v, (val = some v ∨ val = some (.ptr v)) ∧ v.numericToFloat fo = some x) ∧
    (convertToFloatOrPanic fo val = .error (.msg "value must be float") ↔
      (¬ (val = none ∨ ∃ t, val = some (.nilPtr t)) ∧
        ¬ ∃ v, (val = some v ∨ val = some (.ptr v)) ∧ (v.numericToFloat fo).isSome = true)) ∧
    (∀ e metric dims, GAUGE fo e metric dims val =
      (convertToFloatOrPanic fo val).map
        (fun x => { name := metric,
                    data := .gauge [{ doubleValue := x, attributes := dims }] })) ∧
    (∀ e metric dims, CUMULATIVE fo e metric dims val =
      (convertToFloatOrPanic fo val).map
        (fun x => { name := metric,
                    data := .sum [{ doubleValue := x, attributes := dims }] })) := by
  refine ⟨?_, ?_, ?_, ?_, ?_⟩
  · rcases val with _ | v
    · simp [convertToFloatOrPanic, reflectValueOf, reflectIndirect, RValue.IsValid]
    · cases v with
      | ptr t =>
        cases t <;>
          simp [convertToFloatOrPanic, reflectValueOf, reflectIndirect, RValue.IsValid,
            RValue.Type, Val.typeOf, Ty.ConvertibleToFloat, RValue.ConvertFloat]
      | _ =>
        simp [convertToFloatOrPanic, reflectValueOf, reflectIndirect, RValue.IsValid,
          RValue.Type, Val.typeOf, Ty.ConvertibleToFloat, RValue.ConvertFloat]
  · intro x
    rcases val with _ | v
    · simp [convertToFloatOrPanic, reflectValueOf, reflectIndirect, RValue.IsValid]
    · cases v with
      | ptr t =>
        cases t <;>
          simp [convertToFloatOrPanic, reflectValueOf, reflectIndirect, RValue.IsValid,
            RValue.Type, Val.typeOf, Ty.ConvertibleToFloat, RValue.ConvertFloat,
            Val.numericToFloat, or_and_right, exists_or]
      | _ =>
        simp [convertToFloatOrPanic, reflectValueOf, reflectIndirect, RValue.IsValid,
          RValue.Type, Val.typeOf, Ty.ConvertibleToFloat, RValue.ConvertFloat,
          Val.numericToFloat, or_and_right, exists_or]
  · rcases val with _ | v
    · simp [convertToFloatOrPanic, reflectValueOf, reflectIndirect, RValue.IsValid]
    · cases v with
      | ptr t =>
        cases t <;>
          simp [convertToFloatOrPanic, reflectValueOf, reflectIndirect, RValue.IsValid,
            RValue.Type, Val.typeOf, Ty.ConvertibleToFloat, RValue.ConvertFloat,
            Val.numericToFloat, or_and_right, exists_or]
      | _ =>
        simp [convertToFloatOrPanic, reflectValueOf, reflectIndirect, RValue.IsValid,
          RValue.Type, Val.typeOf, Ty.ConvertibleToFloat, RValue.ConvertFloat,
          Val.numericToFloat, or_and_right, exists_or]
  · intro e metric dims
    unfold GAUGE
    cases convertToFloatOrPanic fo val <;> rfl
  · intro e metric dims
    unfold CUMULATIVE
    cases convertToFloatOrPanic fo val <;> rfl

theorem scanStep_eq (scanners vals : List Iface) (i : Nat) (hset : vals.set i none = vals) :
    scanStep scanners vals i =
      if derefsNil (scanners.getD i none) = true then .error .nilDereference
      else .ok (vals.set i (scanResult (scanners.getD i none))) := by
  unfold scanStep
  generalize scanners.getD i none = s
  rcases s with _ | v
  · simp [derefsNil, scanResult]
  · cases v with
    | ptr t =>
      cases t with
      | nullString x => cases hx : x.Valid <;> simp [derefsNil, scanResult, hset, hx]
      | nullFloat64 x => cases hx : x.Valid <;> simp [derefsNil, scanResult, hset, hx]
      | nullTime x => cases hx : x.Valid <;> simp [derefsNil, scanResult, hset, hx]
      | nullBool x => cases hx : x.Valid <;> simp [derefsNil, scanResult, hset, hx]
      | _ => simp [derefsNil, scanResult]
    | nilPtr e => cases e <;> simp [derefsNil, scanResult, hset]
    | ptrIface h =>
      cases h with
      | ptr t => cases t <;> simp [derefsNil, scanResult, hset]
      | nilPtr e => cases e <;> simp [derefsNil, scanResult, hset]
      | _ => simp [derefsNil, scanResult, hset]
    | ptrNilIface => simp [derefsNil, scanResult, hset]
    | _ => simp [derefsNil, scanResult]

theorem scanLoop_prefix (scanners : List Iface) (n : Nat) (hn : n ≤ scanners.length) :
    (List.range n).foldlM (scanStep scanners) (List.replicate scanners.length none) =
      if (scanners.take n).any derefsNil = true then .error .nilDereference
      else .ok ((scanners.take n).map scanResult ++
        List.replicate (scanners.length - n) none) := by
  induction n with
  | zero =>
    simp
    rfl
  | succ n ih =>
    have hlt : n < scanners.length := hn
    have htake : scanners.take (n + 1) = scanners.take n ++ [scanners[n]] := by
      rw [List.take_succ]
      simp [List.getElem?_eq_getElem hlt]
    have hgetD : scanners.getD n none = scanners[n] := List.getD_eq_getElem _ _ hlt
    have hlen : ((scanners.take n).map scanResult).length = n := by
      simp [List.length_take, Nat.le_of_lt hlt]
    have hrep : List.replicate (scanners.length - n) (none : Iface) =
        none :: List.replicate (scanners.length - (n + 1)) none := by
      have : scanners.length - n = (scanners.length - (n + 1)) + 1 := by omega
      rw [this, List.replicate_succ]
    rw [List.range_succ, List.foldlM_append, ih (Nat.le_of_lt hlt)]
    by_cases hany : (scanners.take n).any derefsNil = true
    · rw [if_pos hany, htake, List.any_append, hany]
      rfl
    · rw [if_neg hany]
      have hset : ∀ x : Iface,
          ((scanners.take n).map scanResult ++
              List.replicate (scanners.length - n) none).set n x =
            (scanners.take n).map scanResult ++
              x :: List.replicate (scanners.length - (n + 1)) none := by
        intro x
        rw [hrep, List.set_append_right _ _ (by omega), hlen]
        simp
      have hstep := scanStep_eq scanners
        ((scanners.take n).map scanResult ++ List.replicate (scanners.length - n) none) n
        (by rw [hset none, ← hrep])
      have hbind : (Except.ok ((scanners.take n).map scanResult ++
            List.replicate (scanners.length - n) none) >>=
            fun vals => [n].foldlM (scanStep scanners) vals) =
          scanStep scanners ((scanners.take n).map scanResult ++
            List.replicate (scanners.length - n) none) n := by
        show [n].foldlM (scanStep scanners) _ = _
        simp [List.foldlM]
      rw [hbind, hstep, hgetD, hset, htake, List.any_append]
      have hfalse : (scanners.take n).any derefsNil = false := by
        simpa using hany
      rw [hfalse]
      cases hd : derefsNil scanners[n] <;>
        simp only [hd, List.any_cons, List.any_nil, Bool.false_or, Bool.or_false, if_false,
          if_true, List.map_append, List.map_cons, List.map_nil, List.append_assoc,
          List.singleton_append, Bool.false_eq_true]

theorem scannedToValues_eq (scanners : List Iface) :
    scannedToValues scanners =
      if scanners.any derefsNil = true then .error .nilDereference
      else .ok (scanners.map scanResult) := by
  have h := scanLoop_prefix scanners scanners.length (Nat.le_refl _)
  simpa [scannedToValues] using h

theorem envLoop_ok (values : List Iface) (l : List (Nat × GoString)) (out : ExprEnv)
    (h : ∀ p ∈ l, p.1 < values.length) : ∃ env, l.foldlM (envStep values) out = .ok env := by
  induction l generalizing out with
  | nil => exact ⟨out, rfl⟩
  | cons p l ih =>
    have hp : p.1 < values.length := h p (List.mem_cons_self _ _)
    have hstep : envStep values out p = .ok (GoMap.assign out p.2 values[p.1]) := by
      simp [envStep, List.getElem?_eq_getElem hp]
    obtain ⟨env, henv⟩ := ih (GoMap.assign out p.2 values[p.1])
      (fun q hq => h q (List.mem_cons_of_mem _ hq))
    refine ⟨env, ?_⟩
    rw [List.foldlM_cons, hstep]
    exact henv

theorem envLoop_error (values : List Iface) (l : List (Nat × GoString)) (out : ExprEnv)
    (h : ∃ p ∈ l, values.length ≤ p.1) :
    ∃ i, values.length ≤ i ∧
      l.foldlM (envStep values) out = .error (.indexOutOfRange i values.length) := by
  induction l generalizing out with
  | nil =>
    obtain ⟨p, hp, _⟩ := h
    exact absurd hp (List.not_mem_nil _)
  | cons p l ih =>
    by_cases hp : p.1 < values.length
    · have hstep : envStep values out p = .ok (GoMap.assign out p.2 values[p.1]) := by
        simp [envStep, List.getElem?_eq_getElem hp]
      have hrest : ∃ q ∈ l, values.length ≤ q.1 := by
        obtain ⟨q, hq, hle⟩ := h
        rcases List.mem_cons.1 hq with rfl | hq'
        · omega
        · exact ⟨q, hq', hle⟩
      obtain ⟨i, hi, hfold⟩ := ih (GoMap.assign out p.2 values[p.1]) hrest
      refine ⟨i, hi, ?_⟩
      rw [List.foldlM_cons, hstep]
      exact hfold
    · have hnone : values[p.1]? = none := List.getElem?_eq_none (by omega)
      have hstep : envStep values out p = .error (.indexOutOfRange p.1 values.length) := by
        simp [envStep, hnone]
      refine ⟨p.1, by omega, ?_⟩
      rw [List.foldlM_cons, hstep]
      rfl

/-- What the code of `newExprEnv` does: it completes exactly when scanning
dereferences no nil pointer and there are at most as many column names as row
values. -/
theorem newExprEnv_completes_iff (rowSlice : List Iface) (columnNames : List GoString) :
    (∃ env, newExprEnv rowSlice columnNames = .ok env) ↔
      (rowSlice.any derefsNil = false ∧ columnNames.length ≤ rowSlice.length) := by
  unfold newExprEnv
  rw [scannedToValues_eq]
  cases hany : rowSlice.any derefsNil with
  | true => simp
  | false =>
    simp only [Bool.false_eq_true, if_false, true_and]
    constructor
    · rintro ⟨env, henv⟩
      by_contra hlen
      have hlt : rowSlice.length < columnNames.length := by omega
      have hmem : (rowSlice.length, columnNames[rowSlice.length]) ∈ columnNames.enum := by
        rw [List.mk_mem_enum_iff_getElem?]
        exact List.getElem?_eq_getElem hlt
      obtain ⟨i, _, herr⟩ := envLoop_error (rowSlice.map scanResult) columnNames.enum []
        ⟨_, hmem, by simp⟩
      rw [herr] at henv
      cases henv
    · intro hlen
      apply envLoop_ok
      intro p hp
      have := List.fst_lt_of_mem_enum hp
      simp only [List.length_map]
      omega

/-- Claim C7 at its failing input: with two row values and one column name the
lengths differ, yet `newExprEnv` returns an environment; with three names it
panics on the index, and with equal lengths it returns. -/
theorem newExprEnv_shorter_names_returns :
    newExprEnv [some (.int .int64 1), some (.int .int64 2)] [colA] =
      .ok [(colA, some (.int .int64 1))] ∧
    newExprEnv [some (.int .int64 1), some (.int .int64 2)] [colA, colB, colA] =
      .error (.indexOutOfRange 2 2) ∧
    newExprEnv [some (.int .int64 1), some (.int .int64 2)] [colA, colB] =
      .ok [(colA, some (.int .int64 1)), (colB, some (.int .int64 2))] :=
  ⟨rfl, rfl, rfl⟩

/-- Claim C10 at its failing input: on a nil `*sql.NullString`, and on an
interface pointer holding a nil `*[]uint8`, `scannedToValues` panics with a nil
dereference instead of returning a list; the nil `*interface{}` is guarded and
yields nil. -/
theorem scannedToValues_nil_pointer_panics :
    scannedToValues [some (.nilPtr .nullString)] = .error .nilDereference ∧
    scannedToValues [some (.int .int64 5), some (.ptrIface (.nilPtr .bytes))] =
      .error .nilDereference ∧
    scannedToValues [some (.nilPtr .iface)] = .ok [none] :=
  ⟨rfl, rfl, rfl⟩

end Sql
